import Mathlib

/-!
Verification of the AM (additive manufacturing) report Streamlit application
(`3pdx_report_streamlit_app.py`) against its natural-language specification.

The first part embeds, directly from the source file, the parts of the code
that exist there: the model-name mapping, the prompt-assembly payload built in
`run_inference`, the UI gating in `main`, and the two download documents.
The second part models, from the specification's words, the core components
the spec describes but that are absent from the source (Section Extractor,
Risk Classifier, Template Binder, IndependentComponentSummary).
-/

/-- Analysis variant selected in the UI: `st.session_state.analysis_type` is
either the string "full" or the string "brief". -/
inductive AnalysisType where
  | full
  | brief
deriving DecidableEq, Repr

/-- A part of the request payload handed to the generation backend: either a
text chunk or an artifact handle (a PIL image in the source, modelled as a
value of an arbitrary type `α`). -/
inductive ReqPart (α : Type) where
  | text (s : String)
  | image (a : α)
deriving DecidableEq, Repr

/-- The `MODEL_MAPPING` dictionary (source lines 109-113), as a lookup. -/
def MODEL_MAPPING (name : String) : Option String :=
  if name = "간단" then some "gemini-2.5-flash-lite"
  else if name = "보통" then some "gemini-2.5-flash"
  else if name = "고급" then some "gemini-2.5-pro"
  else none

/-- The lookup `MODEL_MAPPING.get(model_name, "gemini-2.5-flash")` (source line 503). -/
def actual_model_name (name : String) : String :=
  (MODEL_MAPPING name).getD "gemini-2.5-flash"

/-- Marker preceding the supporting data in the payload (source line 519). -/
def dataBeginMarker : String := "\n\n--- 분석 데이터 시작 ---\n"

/-- Marker following the supporting data in the payload (source line 521). -/
def dataEndMarker : String := "\n--- 분석 데이터 끝 ---\n"

/-- Marker preceding the artifacts in the payload (source line 526). -/
def artifactsMarker : String := "\n--- 첨부 그래프 (10개) ---\n"

/-- The request payload built by `run_inference` (source lines 516-527):
`model_input = [prompt, data-begin, stats_content, data-end]`, then
`if images:` append the artifacts marker and extend with the images.
Python truthiness makes `None` and the empty list both skip the branch. -/
def model_input {α : Type} (prompt stats_content : String)
    (images : Option (List α)) : List (ReqPart α) :=
  let base : List (ReqPart α) :=
    [ReqPart.text prompt, ReqPart.text dataBeginMarker,
     ReqPart.text stats_content, ReqPart.text dataEndMarker]
  match images with
  | none => base
  | some imgs =>
    if imgs.isEmpty then base
    else base ++ (ReqPart.text artifactsMarker :: imgs.map ReqPart.image)

/-- The `graphs_ready` flag computed in `main` (source lines 667-672): in full mode it
is `graph_files and len(graph_files) == 10` (with `n` the number of uploaded
graph files, `0` standing for an absent upload); in brief mode it is true. -/
def graphs_ready (a : AnalysisType) (n : Nat) : Bool :=
  match a with
  | AnalysisType.full => (n != 0) && (n == 10)
  | AnalysisType.brief => true

/-- The generate button's enabled state (source lines 678-680): the button is
`disabled=not (api_ready and stats_ready and graphs_ready)`. -/
def button_enabled (api_ready stats_ready g_ready : Bool) : Bool :=
  api_ready && stats_ready && g_ready

/-- The warning branch of the graph uploader (source lines 619-634): a
warning is shown exactly when some graphs are uploaded but not ten. -/
def upload_warning (n : Nat) : Bool :=
  (n != 0) && (n != 10)

/-- UI label of the analysis variant used in the Markdown header
(source line 768). -/
def analysis_label : AnalysisType → String
  | AnalysisType.full => "전체 분석 (그래프 포함)"
  | AnalysisType.brief => "간략 분석 (텍스트만)"

/-- The Markdown download document `report_with_header`
(source lines 765-772): a fixed title, a 16-space line, the generation
timestamp, the analysis-variant label, a rule, then the report body. -/
def report_with_header (now : String) (a : AnalysisType)
    (report_content : String) : String :=
  "# 적층제조 공정 분석 보고서\n                \n**생성 시간:** " ++ now ++
  "\n**분석 유형:** " ++ analysis_label a ++ "\n\n---\n\n" ++ report_content

/-- The JSON download document `json_data` (source lines 784-789), as the
ordered association list of its fields. -/
def json_data (timestamp model analysis_type report : String) :
    List (String × String) :=
  [("timestamp", timestamp), ("model", model),
   ("analysis_type", analysis_type), ("report", report)]

example : actual_model_name "보통" = "gemini-2.5-flash" := by decide
example : actual_model_name "whatever" = "gemini-2.5-flash" := by decide
example : (model_input "P" "S" (some [0, 1])).length = 7 := by decide
example : (model_input "P" "S" (none : Option (List Nat))).length = 4 := by decide
example : graphs_ready AnalysisType.full 9 = false := by decide
example : (json_data "t" "m" "a" "r").map Prod.fst =
    ["timestamp", "model", "analysis_type", "report"] := by decide

/-! ### Spec-modelled core

The specification describes a Section Extractor, a Risk Classifier, a
Template Binder and an IndependentComponentSummary that are not implemented
under `src/` (the source only carries their declaration inside the prompt
templates, e.g. the `INPUT_BINDINGS` fallback rule and the traffic-light
decision rules). They are modelled here from the specification's words. -/

/-- Splits a character list into its lines at newline characters. -/
def lineSplit : List Char → List (List Char)
  | [] => [[]]
  | c :: rest =>
    match lineSplit rest with
    | [] => [[c]]
    | l :: ls => if c = '\n' then [] :: l :: ls else (c :: l) :: ls

/-- Predicate `leadsWith pat l` is true when `pat` occurs at the start of `l`. -/
def leadsWith : List Char → List Char → Bool
  | [], _ => true
  | _ :: _, [] => false
  | p :: ps, c :: cs => p == c && leadsWith ps cs

/-- Function `stripKey key l` returns the remainder of `l` after `key` when `key`
occurs at the start of `l`, and `none` otherwise. -/
def stripKey : List Char → List Char → Option (List Char)
  | [], l => some l
  | _ :: _, [] => none
  | k :: ks, c :: cs => if k = c then stripKey ks cs else none

/-- Parses a list of characters as a nonempty run of decimal digits. -/
def digitsVal : List Char → Option Nat
  | [] => none
  | cs =>
    if cs.all Char.isDigit then
      some (cs.foldl (fun acc c => acc * 10 + (c.toNat - 48)) 0)
    else none

/-- Splits at the first `.`: the characters before it, and those after it
when a `.` is present. -/
def splitDot : List Char → List Char × Option (List Char)
  | [] => ([], none)
  | c :: cs =>
    if c = '.' then ([], some cs)
    else
      let r := splitDot cs
      (c :: r.1, r.2)

/-- Modelled from the spec: numeric parsing of a field value (§4.1, §7) at
the integer level: a decimal numeral `int` or `int.frac` yields the scaled
numerator and the number of decimal places; anything else fails, which the
extractor treats as an absent field. -/
def parseDec (cs : List Char) : Option (Nat × Nat) :=
  match splitDot cs with
  | (w, none) => (digitsVal w).map fun n => (n, 0)
  | (w, some f) =>
    match digitsVal w, digitsVal f with
    | some n, some m => some (n * 10 ^ f.length + m, f.length)
    | _, _ => none

/-- The parsed field value as a rational number. -/
def parseDecimal (cs : List Char) : Option ℚ :=
  (parseDec cs).map fun p => (p.1 : ℚ) / (10 : ℚ) ^ p.2

/-- Overall process status enum of the HealthRecord (§3). -/
inductive OverallStatus where
  | HEALTHY
  | MODERATE_RISK
  | HIGH_RISK
  | UNKNOWN
deriving DecidableEq, Repr

/-- Energy-concentration status enum of the HealthRecord (§3). -/
inductive EnergyStatus where
  | STABLE
  | WARNING
  | UNSTABLE
  | UNKNOWN
deriving DecidableEq, Repr

/-- Category-balance status enum of the HealthRecord (§3). -/
inductive BalanceStatus where
  | BALANCED
  | MOTION_DOMINANT
  | GAS_DOMINANT
  | UNKNOWN
deriving DecidableEq, Repr

/-- The three-valued risk tier (§3), derived and never parsed. -/
inductive RiskTier where
  | HEALTHY
  | MODERATE_RISK
  | HIGH_RISK
deriving DecidableEq, Repr

/-- Modelled from the spec: the HealthRecord produced by the Section
Extractor (§3), every field defaulting to UNKNOWN / 0.0 / empty. -/
structure HealthRecord where
  overall_status : OverallStatus := OverallStatus.UNKNOWN
  health_score : ℚ := 0
  energy_concentration_status : EnergyStatus := EnergyStatus.UNKNOWN
  mode1_energy_pct : ℚ := 0
  category_balance_status : BalanceStatus := BalanceStatus.UNKNOWN
  critical_issues : List (List Char) := []
  warnings : List (List Char) := []
  recommendation : List Char := []
deriving DecidableEq, Repr

/-- The all-defaults HealthRecord (§3, §4.1). -/
def defaultRecord : HealthRecord := {}

/-- Modelled from the spec: the fixed start marker of the health section
(§4.1, §6); its literal text is not given in `src/`, so a fixed
representative marker line is used. -/
def healthMarker : List Char := "[PROCESS_HEALTH]".data

/-- Modelled from the spec: enum tokens are taken literally, and an
unrecognized token is UNKNOWN-equivalent (§4.1 with the resolution
recommended in §9's open question). -/
def parseOverall (v : List Char) : OverallStatus :=
  if v = "HEALTHY".data then OverallStatus.HEALTHY
  else if v = "MODERATE_RISK".data then OverallStatus.MODERATE_RISK
  else if v = "HIGH_RISK".data then OverallStatus.HIGH_RISK
  else OverallStatus.UNKNOWN

/-- Modelled from the spec: literal token reading for the
energy-concentration enum, unrecognized tokens UNKNOWN (§4.1, §9). -/
def parseEnergy (v : List Char) : EnergyStatus :=
  if v = "STABLE".data then EnergyStatus.STABLE
  else if v = "WARNING".data then EnergyStatus.WARNING
  else if v = "UNSTABLE".data then EnergyStatus.UNSTABLE
  else EnergyStatus.UNKNOWN

/-- Modelled from the spec: literal token reading for the category-balance
enum, unrecognized tokens UNKNOWN (§4.1, §9). -/
def parseBalance (v : List Char) : BalanceStatus :=
  if v = "BALANCED".data then BalanceStatus.BALANCED
  else if v = "MOTION_DOMINANT".data then BalanceStatus.MOTION_DOMINANT
  else if v = "GAS_DOMINANT".data then BalanceStatus.GAS_DOMINANT
  else BalanceStatus.UNKNOWN

/-- First value of a `name=value` line among `ls` whose name is `key`
(first match wins, §4.1); `key` here includes the `=` sign. -/
def findField (ls : List (List Char)) (key : List Char) : Option (List Char) :=
  match ls with
  | [] => none
  | l :: rest =>
    match stripKey key l with
    | some v => some v
    | none => findField rest key

/-- Modelled from the spec: the bullet lines immediately following the list
header (an indented `- ` bullet), stopping at the first non-bullet line
(§4.1). -/
def bulletLines : List (List Char) → List (List Char)
  | [] => []
  | l :: rest =>
    match stripKey "  - ".data l with
    | some v => v :: bulletLines rest
    | none => []

/-- Lines following the first line of `ls` that matches the list header
`key`; `none` when no line matches. -/
def afterHeader (ls : List (List Char)) (key : List Char) :
    Option (List (List Char)) :=
  match ls with
  | [] => none
  | l :: rest => if l = key then some rest else afterHeader rest key

/-- Modelled from the spec: the items of a list-valued field — the bullets
after its header, or the empty sequence when the header is absent (§4.1). -/
def listField (ls : List (List Char)) (key : List Char) : List (List Char) :=
  match afterHeader ls key with
  | some rest => bulletLines rest
  | none => []

/-- Modelled from the spec: the lines of the health section — the lines
after the first marker line, up to the next marker-style line (a line
starting with `[`) or the end of input (§4.1, §6). -/
def takeSection : List (List Char) → List (List Char)
  | [] => []
  | l :: rest =>
    if leadsWith "[".data l then [] else l :: takeSection rest

/-- Modelled from the spec: locates the health section among the input's
lines; `none` when the start marker is absent (§4.1). -/
def sectionLines : List (List Char) → Option (List (List Char))
  | [] => none
  | l :: rest =>
    if leadsWith healthMarker l then some (takeSection rest)
    else sectionLines rest

/-- Modelled from the spec: builds the HealthRecord from the health
section's lines: each scalar field by its `name=value` pattern (first match
wins, absent match leaves the default, a value failing numeric parsing is
treated as absent), list fields as the bullets after their headers (§4.1). -/
def buildRecord (ls : List (List Char)) : HealthRecord :=
  { overall_status :=
      match findField ls "overall_status=".data with
      | some v => parseOverall v
      | none => OverallStatus.UNKNOWN
    health_score := ((findField ls "health_score=".data).bind parseDecimal).getD 0
    energy_concentration_status :=
      match findField ls "energy_concentration_status=".data with
      | some v => parseEnergy v
      | none => EnergyStatus.UNKNOWN
    mode1_energy_pct :=
      ((findField ls "mode1_energy_pct=".data).bind parseDecimal).getD 0
    category_balance_status :=
      match findField ls "category_balance_status=".data with
      | some v => parseBalance v
      | none => BalanceStatus.UNKNOWN
    critical_issues := listField ls "critical_issues:".data
    warnings := listField ls "warnings:".data
    recommendation := (findField ls "recommendation=".data).getD [] }

/-- Modelled from the spec: the Section Extractor `extract` (§4.1), on the
input's characters. A missing marker yields the all-defaults record; this
is defined behavior, not an error. -/
def extractL (cs : List Char) : HealthRecord :=
  match sectionLines (lineSplit cs) with
  | none => defaultRecord
  | some ls => buildRecord ls

/-- Modelled from the spec: `extract(raw_text) -> HealthRecord` (§4.1). -/
def extract (raw_text : String) : HealthRecord :=
  extractL raw_text.data

/-- Modelled from the spec: the numeric tier-derivation rule of the Risk
Classifier (§4.2), half-open boundaries evaluated in priority order. -/
def classify_score (health_score : ℚ) : RiskTier :=
  if health_score < 0.60 then RiskTier.HIGH_RISK
  else if health_score < 0.85 then RiskTier.MODERATE_RISK
  else RiskTier.HEALTHY

/-- Tier named by a non-UNKNOWN `overall_status`; `none` for UNKNOWN. -/
def statusTier : OverallStatus → Option RiskTier
  | OverallStatus.HEALTHY => some RiskTier.HEALTHY
  | OverallStatus.MODERATE_RISK => some RiskTier.MODERATE_RISK
  | OverallStatus.HIGH_RISK => some RiskTier.HIGH_RISK
  | OverallStatus.UNKNOWN => none

/-- Display label of a tier (§4.2). -/
def tierLabel : RiskTier → String
  | RiskTier.HEALTHY => "정상"
  | RiskTier.MODERATE_RISK => "주의"
  | RiskTier.HIGH_RISK => "위험"

/-- Display glyph of a tier (§4.2). -/
def tierGlyph : RiskTier → String
  | RiskTier.HEALTHY => "🟢"
  | RiskTier.MODERATE_RISK => "🟡"
  | RiskTier.HIGH_RISK => "🔴"

/-- Modelled from the spec: the Risk Classifier `classify` (§4.2). The
record's own `overall_status`, when present and not UNKNOWN, is
authoritative; the numeric boundaries are the derivation rule used when it
is UNKNOWN. -/
def classify (r : HealthRecord) : RiskTier × String × String :=
  let tier :=
    match statusTier r.overall_status with
    | some t => t
    | none => classify_score r.health_score
  (tier, tierLabel tier, tierGlyph tier)

/-- Modelled from the spec: the IndependentComponentSummary (§3); the
spec's derived ratio field (problematic_ratio, in percent) is named
`problematic_percent` here. -/
structure IndependentComponentSummary where
  total_components : Nat
  problematic_count : Nat
  problematic_percent : ℚ
deriving DecidableEq, Repr

/-- Modelled from the spec: derivation of the IndependentComponentSummary
from the two parsed counts (§3): `problematic_count` is clamped to
`total_components` when the source exceeds it, and `problematic_percent` is
`problematic_count / total_components × 100` when `total_components > 0`,
else `0.0`. -/
def mkSummary (total problematic : Nat) : IndependentComponentSummary :=
  let count := min problematic total
  { total_components := total
    problematic_count := count
    problematic_percent :=
      if total > 0 then (count : ℚ) / (total : ℚ) * 100 else 0 }

/-- Modelled from the spec: the second, independent pass of the Extractor
(§4.1), scanning the entire input's lines for the two component counts by
the same `name=value` strategy; a missing or unparsable count is 0. -/
def extractSummary (cs : List Char) : IndependentComponentSummary :=
  let ls := lineSplit cs
  mkSummary
    (((findField ls "total_components=".data).bind digitsVal).getD 0)
    (((findField ls "problematic_count=".data).bind digitsVal).getD 0)

/-- A template token: fixed literal text or a named placeholder slot (§4.3
with the slot-list representation recommended in §9). -/
inductive Tok where
  | lit (s : String)
  | hole (nm : String)
deriving DecidableEq, Repr

/-- Modelled from the spec: the fallback sentinel, a single dash character,
substituted for a placeholder absent from the values map (§4.3; declared in
the source template's `INPUT_BINDINGS` fallback rule, lines 281-312). -/
def fallbackSentinel : String := "-"

/-- Modelled from the spec: the Template Binder `bind` (§4.3). Every
placeholder present in `values` is substituted verbatim; an absent one is
replaced by the fallback sentinel; literals pass through; binding always
succeeds. -/
def bindT (tpl : List Tok) (values : String → Option String) : String :=
  match tpl with
  | [] => ""
  | Tok.lit s :: rest => s ++ bindT rest values
  | Tok.hole nm :: rest =>
    (match values nm with
     | some v => v
     | none => fallbackSentinel) ++ bindT rest values

example : extract "no marker anywhere" = defaultRecord := by decide
example :
    (extract "[PROCESS_HEALTH]\nhealth_score=0.95\noverall_status=HIGH_RISK").overall_status
      = OverallStatus.HIGH_RISK := by decide
example : parseDec "0.95".data = some (95, 2) := by decide
example : parseDec "abc".data = none := by decide
example : classify_score 0.7 = RiskTier.MODERATE_RISK := by norm_num [classify_score]
example : (mkSummary 8 12).problematic_count = 8 := by decide

/-- Predicate `containsSub pat l` is true when `pat` occurs contiguously in `l`. -/
def containsSub (pat : List Char) : List Char → Bool
  | [] => leadsWith pat []
  | c :: cs => leadsWith pat (c :: cs) || containsSub pat cs

/-! ### Helper lemmas -/

theorem lineSplit_ne_nil (cs : List Char) : lineSplit cs ≠ [] := by
  induction cs with
  | nil => simp [lineSplit]
  | cons c rest ih =>
    rw [lineSplit]
    cases h : lineSplit rest with
    | nil => simp
    | cons l ls => by_cases hc : c = '\n' <;> simp [hc]

theorem lineSplit_no_nl (a : List Char) (h : '\n' ∉ a) : lineSplit a = [a] := by
  induction a with
  | nil => rfl
  | cons c rest ih =>
    have hc : c ≠ '\n' := fun e => h (e ▸ List.mem_cons_self c rest)
    have hr : '\n' ∉ rest := fun m => h (List.mem_cons_of_mem c m)
    simp [lineSplit, ih hr, hc]

theorem lineSplit_append (a b : List Char) (h : '\n' ∉ a) :
    lineSplit (a ++ '\n' :: b) = a :: lineSplit b := by
  induction a with
  | nil =>
    simp only [List.nil_append, lineSplit]
    cases hb : lineSplit b with
    | nil => exact absurd hb (lineSplit_ne_nil b)
    | cons l ls => simp
  | cons c rest ih =>
    have hc : c ≠ '\n' := fun e => h (e ▸ List.mem_cons_self c rest)
    have hr : '\n' ∉ rest := fun m => h (List.mem_cons_of_mem c m)
    simp [lineSplit, ih hr, hc]

theorem leadsWith_mono (p l t : List Char) (h : leadsWith p l = true) :
    leadsWith p (l ++ t) = true := by
  induction p generalizing l with
  | nil => rfl
  | cons c cs ih =>
    cases l with
    | nil => simp [leadsWith] at h
    | cons d ds =>
      simp only [leadsWith, Bool.and_eq_true, beq_iff_eq] at h
      simp only [List.cons_append, leadsWith, Bool.and_eq_true, beq_iff_eq]
      exact ⟨h.1, ih ds h.2⟩

theorem leadsWith_refl (p : List Char) : leadsWith p p = true := by
  induction p with
  | nil => rfl
  | cons c cs ih => simp [leadsWith, ih]

theorem lineSplit_head_pre (cs l : List Char) (ls : List (List Char))
    (h : lineSplit cs = l :: ls) : ∃ t, cs = l ++ t := by
  induction cs generalizing l ls with
  | nil =>
    simp only [lineSplit, List.cons.injEq] at h
    exact ⟨[], by simp [← h.1]⟩
  | cons c rest ih =>
    cases hr : lineSplit rest with
    | nil => exact absurd hr (lineSplit_ne_nil rest)
    | cons l' ls' =>
      rw [lineSplit, hr] at h
      by_cases hc : c = '\n'
      · simp only [hc, if_pos, List.cons.injEq] at h
        exact ⟨c :: rest, by simp [← h.1]⟩
      · simp only [if_neg hc, List.cons.injEq] at h
        obtain ⟨t, ht⟩ := ih l' ls' hr
        exact ⟨t, by simp [← h.1, ht]⟩

theorem stripKey_append (k v : List Char) : stripKey k (k ++ v) = some v := by
  induction k with
  | nil => rfl
  | cons c cs ih => simp [stripKey, ih]

theorem no_line_leads (cs : List Char)
    (h : containsSub healthMarker cs = false) :
    ∀ l ∈ lineSplit cs, leadsWith healthMarker l = false := by
  induction cs with
  | nil =>
    intro l hl
    simp only [lineSplit, List.mem_singleton] at hl
    subst hl
    rfl
  | cons c rest ih =>
    intro l hl
    simp only [containsSub, Bool.or_eq_false_iff] at h
    obtain ⟨h1, h2⟩ := h
    cases hr : lineSplit rest with
    | nil => exact absurd hr (lineSplit_ne_nil rest)
    | cons l' ls' =>
      rw [lineSplit, hr] at hl
      by_cases hc : c = '\n'
      · simp only [if_pos hc] at hl
        rcases List.mem_cons.mp hl with rfl | hl'
        · rfl
        · exact ih h2 l (hr ▸ hl')
      · simp only [if_neg hc] at hl
        rcases List.mem_cons.mp hl with rfl | hl'
        · obtain ⟨t, ht⟩ := lineSplit_head_pre rest l' ls' hr
          by_contra hb
          have hb' : leadsWith healthMarker (c :: l') = true := by
            cases hx : leadsWith healthMarker (c :: l') with
            | false => exact absurd hx hb
            | true => rfl
          have : leadsWith healthMarker ((c :: l') ++ t) = true :=
            leadsWith_mono _ _ _ hb'
          rw [List.cons_append, ← ht] at this
          rw [this] at h1
          exact Bool.true_eq_false.mp h1
        · exact ih h2 l (hr ▸ List.mem_cons_of_mem l' hl')

theorem sectionLines_none (ls : List (List Char))
    (h : ∀ l ∈ ls, leadsWith healthMarker l = false) :
    sectionLines ls = none := by
  induction ls with
  | nil => rfl
  | cons l rest ih =>
    rw [sectionLines, if_neg]
    · exact ih fun x hx => h x (List.mem_cons_of_mem l hx)
    · simp [h l (List.mem_cons_self l rest)]

theorem bindT_append (a b : List Tok) (values : String → Option String) :
    bindT (a ++ b) values = bindT a values ++ bindT b values := by
  induction a with
  | nil => simp [bindT]
  | cons t rest ih =>
    cases t <;> simp [bindT, ih, String.append_assoc]

theorem containsSub_append_right (p a b : List Char)
    (h : containsSub p b = true) : containsSub p (a ++ b) = true := by
  induction a with
  | nil => simpa using h
  | cons c rest ih =>
    rw [List.cons_append, containsSub, ih, Bool.or_true]

theorem containsSub_self_append (p t : List Char) :
    containsSub p (p ++ t) = true := by
  cases hp : p ++ t with
  | nil =>
    have : p = [] := (List.append_eq_nil.mp hp).1
    subst this
    simp only [List.nil_append] at hp
    subst hp
    rfl
  | cons c cs =>
    rw [containsSub, ← hp, leadsWith_mono p p t (leadsWith_refl p), Bool.true_or]

/-! ### Claim theorems -/

/-- C2: for every rational `health_score`, the numeric tier derivation of
the Risk Classifier follows the ordered half-open boundaries: HIGH_RISK
below 0.60, MODERATE_RISK in [0.60, 0.85), HEALTHY at and above 0.85; the
boundary values 0.60 and 0.85 resolve to MODERATE_RISK and HEALTHY, values
below 0 to HIGH_RISK and values above 1 to HEALTHY; the classifier is a
total function on ℚ. -/
theorem C2_tier_boundaries (q : ℚ) :
    (q < 0.60 → classify_score q = RiskTier.HIGH_RISK) ∧
    (0.60 ≤ q → q < 0.85 → classify_score q = RiskTier.MODERATE_RISK) ∧
    (0.85 ≤ q → classify_score q = RiskTier.HEALTHY) ∧
    (q < 0 → classify_score q = RiskTier.HIGH_RISK) ∧
    (1 < q → classify_score q = RiskTier.HEALTHY) ∧
    classify_score 0.60 = RiskTier.MODERATE_RISK ∧
    classify_score 0.85 = RiskTier.HEALTHY := by
  refine ⟨?_, ?_, ?_, ?_, ?_, ?_, ?_⟩
  · intro h
    rw [classify_score, if_pos h]
  · intro h1 h2
    rw [classify_score, if_neg (not_lt.mpr h1), if_pos h2]
  · intro h
    have h6 : ¬ q < 0.60 := not_lt.mpr (le_trans (by norm_num) h)
    rw [classify_score, if_neg h6, if_neg (not_lt.mpr h)]
  · intro h
    have : q < 0.60 := lt_trans h (by norm_num)
    rw [classify_score, if_pos this]
  · intro h
    have h8 : (0.85 : ℚ) ≤ q := le_trans (by norm_num) h.le
    have h6 : ¬ q < 0.60 := not_lt.mpr (le_trans (by norm_num) h8)
    rw [classify_score, if_neg h6, if_neg (not_lt.mpr h8)]
  · norm_num [classify_score]
  · norm_num [classify_score]

/-- C2 witness: 0.70 lies in [0.60, 0.85) and is classified MODERATE_RISK. -/
theorem C2_tier_boundaries_witness :
    classify_score (7/10) = RiskTier.MODERATE_RISK :=
  (C2_tier_boundaries (7/10)).2.1 (by norm_num) (by norm_num)

/-- C3: for every raw text that does not contain the health-section start
marker, `extract` returns the all-defaults HealthRecord. -/
theorem C3_extract_defaults (raw : String)
    (h : containsSub healthMarker raw.data = false) :
    extract raw = defaultRecord := by
  unfold extract extractL
  rw [sectionLines_none _ (no_line_leads _ h)]

/-- C3 witness: a concrete marker-free text extracts to the defaults. -/
theorem C3_extract_defaults_witness :
    containsSub healthMarker "quality was fine\nnothing else".data = false ∧
    extract "quality was fine\nnothing else" = defaultRecord :=
  ⟨by decide, C3_extract_defaults "quality was fine\nnothing else" (by decide)⟩

/-- C6: the record's own `overall_status`, when not UNKNOWN, is
authoritative for the classified tier (independent of `health_score`); the
numeric boundary rule is used exactly when it is UNKNOWN. -/
theorem C6_status_authoritative (r : HealthRecord) :
    (∀ t, statusTier r.overall_status = some t → (classify r).1 = t) ∧
    (statusTier r.overall_status = none →
      (classify r).1 = classify_score r.health_score) := by
  constructor
  · intro t h
    simp [classify, h]
  · intro h
    simp [classify, h]

/-- C6 witness: overall_status HIGH_RISK with health_score 0.95 classifies
HIGH_RISK, not HEALTHY. -/
theorem C6_status_authoritative_witness :
    (classify { overall_status := OverallStatus.HIGH_RISK,
                health_score := 0.95 }).1 = RiskTier.HIGH_RISK :=
  (C6_status_authoritative _).1 RiskTier.HIGH_RISK rfl

/-- C10: every model-selection key other than the three mapped keys falls
back to the default backend model "gemini-2.5-flash". -/
theorem C10_default_model (name : String) (h1 : name ≠ "간단")
    (h2 : name ≠ "보통") (h3 : name ≠ "고급") :
    actual_model_name name = "gemini-2.5-flash" := by
  rw [actual_model_name, MODEL_MAPPING, if_neg h1, if_neg h2, if_neg h3]
  rfl

/-- C10 witness: the unmapped key "gpt-4" selects the default model. -/
theorem C10_default_model_witness :
    actual_model_name "gpt-4" = "gemini-2.5-flash" :=
  C10_default_model "gpt-4" (by decide) (by decide) (by decide)

theorem mkSummary_count_le (t p : Nat) :
    (mkSummary t p).problematic_count ≤ t :=
  min_le_right p t

theorem mkSummary_percent_le (t p : Nat) :
    (mkSummary t p).problematic_percent ≤ 100 := by
  show (if t > 0 then ((min p t : Nat) : ℚ) / (t : ℚ) * 100 else 0) ≤ 100
  by_cases ht : t > 0
  · rw [if_pos ht]
    have h2 : (0 : ℚ) < (t : ℚ) := by exact_mod_cast ht
    have h1 : ((min p t : Nat) : ℚ) ≤ (t : ℚ) := by
      exact_mod_cast min_le_right p t
    have h3 : ((min p t : Nat) : ℚ) / (t : ℚ) ≤ 1 := (div_le_one h2).mpr h1
    calc ((min p t : Nat) : ℚ) / (t : ℚ) * 100 ≤ 1 * 100 :=
          mul_le_mul_of_nonneg_right h3 (by norm_num)
      _ = 100 := by norm_num
  · rw [if_neg ht]
    norm_num

/-- C8: the parsed IndependentComponentSummary clamps `problematic_count`
to `total_components` (an excess count is reported as the total, a
consistent one verbatim), and the derived `problematic_percent` equals
`count / total × 100` when the total is positive, is `0` when the total is
zero, and never exceeds 100 — also for every summary parsed from raw
text. -/
theorem C8_summary_clamp (t p : Nat) (cs : List Char) :
    (mkSummary t p).problematic_count ≤ t ∧
    (p ≤ t → (mkSummary t p).problematic_count = p) ∧
    (t < p → (mkSummary t p).problematic_count = t) ∧
    (mkSummary t p).problematic_percent ≤ 100 ∧
    (t = 0 → (mkSummary t p).problematic_percent = 0) ∧
    (0 < t → (mkSummary t p).problematic_percent =
      ((mkSummary t p).problematic_count : ℚ) / (t : ℚ) * 100) ∧
    (extractSummary cs).problematic_count ≤
      (extractSummary cs).total_components ∧
    (extractSummary cs).problematic_percent ≤ 100 := by
  refine ⟨mkSummary_count_le t p, ?_, ?_, mkSummary_percent_le t p, ?_, ?_,
    mkSummary_count_le _ _, mkSummary_percent_le _ _⟩
  · intro h
    show min p t = p
    exact min_eq_left h
  · intro h
    show min p t = t
    exact min_eq_right h.le
  · intro h
    subst h
    show (if 0 > 0 then ((min p 0 : Nat) : ℚ) / ((0 : Nat) : ℚ) * 100 else 0) = 0
    rw [if_neg (by norm_num)]
  · intro h
    show (if t > 0 then ((min p t : Nat) : ℚ) / (t : ℚ) * 100 else 0) =
      ((min p t : Nat) : ℚ) / (t : ℚ) * 100
    rw [if_pos h]

/-- C8 witness: inconsistent input `total=8, problematic=12` reports a count
of 8 and a ratio not exceeding 100. -/
theorem C8_summary_clamp_witness :
    8 < 12 ∧ (mkSummary 8 12).problematic_count = 8 ∧
    (mkSummary 8 12).problematic_percent ≤ 100 :=
  ⟨by norm_num, (C8_summary_clamp 8 12 []).2.2.1 (by norm_num),
   (C8_summary_clamp 8 12 []).2.2.2.1⟩

/-- C7: binding always succeeds; a placeholder absent from the values map
is replaced by the fallback sentinel (a single dash) exactly where it
appears, and a placeholder present in the map is substituted verbatim. -/
theorem C7_bind_fallback (pre post : List Tok)
    (values : String → Option String) :
    (values "risk1" = none →
      bindT (pre ++ Tok.hole "risk1" :: post) values =
        bindT pre values ++ fallbackSentinel ++ bindT post values) ∧
    (∀ nm v, values nm = some v →
      bindT (pre ++ Tok.hole nm :: post) values =
        bindT pre values ++ v ++ bindT post values) := by
  constructor
  · intro h
    rw [bindT_append]
    simp only [bindT, h, String.append_assoc]
  · intro nm v h
    rw [bindT_append]
    simp only [bindT, h, String.append_assoc]

/-- C7 witness: a values map lacking "risk1" binds the sentinel between the
surrounding literals. -/
theorem C7_bind_fallback_witness :
    (fun nm => if nm = "quality" then some "77" else none : String → Option String)
        "risk1" = none ∧
    bindT ([Tok.lit "| "] ++ Tok.hole "risk1" :: [Tok.lit " |"])
        (fun nm => if nm = "quality" then some "77" else none) =
      bindT [Tok.lit "| "]
          (fun nm => if nm = "quality" then some "77" else none) ++
        fallbackSentinel ++
        bindT [Tok.lit " |"]
          (fun nm => if nm = "quality" then some "77" else none) :=
  ⟨rfl, (C7_bind_fallback _ _ _).1 rfl⟩

/-- C9: the Extractor never fails: a `health_score=` line whose value does
not parse as a number leaves `health_score` at its default 0 (treated as
absent), and the other fields keep their defaults; extraction is a total
function on all raw texts. -/
theorem C9_malformed_numeric (v : List Char) (h1 : '\n' ∉ v)
    (h2 : parseDec v = none) :
    (extractL (healthMarker ++ '\n' :: ("health_score=".data ++ v))).health_score
        = 0 ∧
    (extractL (healthMarker ++ '\n' :: ("health_score=".data ++ v))).overall_status
        = OverallStatus.UNKNOWN := by
  have hm : '\n' ∉ healthMarker := by decide
  have hline : '\n' ∉ "health_score=".data ++ v := by
    intro hmem
    rcases List.mem_append.mp hmem with h | h
    · exact absurd h (by decide)
    · exact h1 h
  have hlead : leadsWith "[".data ("health_score=".data ++ v) = false := rfl
  have ht : takeSection ["health_score=".data ++ v] =
      ["health_score=".data ++ v] := by
    rw [takeSection, hlead]
    simp [takeSection]
  have hrec : extractL (healthMarker ++ '\n' :: ("health_score=".data ++ v)) =
      buildRecord ["health_score=".data ++ v] := by
    unfold extractL
    rw [lineSplit_append _ _ hm, lineSplit_no_nl _ hline,
      sectionLines, if_pos (leadsWith_refl healthMarker), ht]
  rw [hrec]
  have hf : findField ["health_score=".data ++ v] "health_score=".data
      = some v := by
    rw [findField, stripKey_append]
  have hf2 : findField ["health_score=".data ++ v] "overall_status=".data
      = none := rfl
  constructor
  · show ((findField ["health_score=".data ++ v] "health_score=".data).bind
        parseDecimal).getD 0 = 0
    rw [hf]
    show (parseDecimal v).getD 0 = 0
    rw [parseDecimal, h2]
    rfl
  · show (match findField ["health_score=".data ++ v] "overall_status=".data with
      | some w => parseOverall w
      | none => OverallStatus.UNKNOWN) = OverallStatus.UNKNOWN
    rw [hf2]

/-- C9 witness: the unparsable value "abc" in a `health_score=` line leaves
the score at its default 0. -/
theorem C9_malformed_numeric_witness :
    '\n' ∉ "abc".data ∧ parseDec "abc".data = none ∧
    (extractL (healthMarker ++ '\n' :: ("health_score=".data ++ "abc".data))).health_score
      = 0 :=
  ⟨by decide, by decide,
   (C9_malformed_numeric "abc".data (by decide) (by decide)).1⟩

/-- C1 counterexample: `run_inference` called with a 9-artifact sequence
raises no precondition-violation error — the request payload is constructed
anyway, containing all nine artifacts after the artifacts marker (neither
truncated nor padded nor rejected). -/
theorem C1_counterexample :
    model_input "PROMPT" "DATA" (some [0, 1, 2, 3, 4, 5, 6, 7, 8]) =
      [ReqPart.text "PROMPT", ReqPart.text dataBeginMarker,
       ReqPart.text "DATA", ReqPart.text dataEndMarker,
       ReqPart.text artifactsMarker,
       ReqPart.image 0, ReqPart.image 1, ReqPart.image 2, ReqPart.image 3,
       ReqPart.image 4, ReqPart.image 5, ReqPart.image 6, ReqPart.image 7,
       ReqPart.image 8] := rfl

/-- C1 (amended): `run_inference` performs no artifact-count check and
never raises for any count — every non-empty artifact sequence is placed
verbatim after the artifacts marker, and an absent sequence yields the
four-part payload; the exactly-ten policy exists only as UI gating in
`main`: in full mode the generate button's `graphs_ready` condition holds
exactly for ten uploaded graphs, while the brief variant needs none. -/
theorem C1_no_count_check {α : Type} (prompt stats : String) (arts : List α) :
    (arts ≠ [] → model_input prompt stats (some arts) =
      [ReqPart.text prompt, ReqPart.text dataBeginMarker, ReqPart.text stats,
       ReqPart.text dataEndMarker, ReqPart.text artifactsMarker] ++
        arts.map ReqPart.image) ∧
    (model_input prompt stats (none : Option (List α)) =
      [ReqPart.text prompt, ReqPart.text dataBeginMarker, ReqPart.text stats,
       ReqPart.text dataEndMarker]) ∧
    (∀ n : Nat, graphs_ready AnalysisType.full n = true ↔ n = 10) ∧
    graphs_ready AnalysisType.brief 0 = true ∧
    (∀ a s g : Bool, button_enabled a s g = true ↔
      a = true ∧ s = true ∧ g = true) := by
  refine ⟨?_, rfl, ?_, rfl, ?_⟩
  · intro h
    have he : arts.isEmpty = false := by simpa [List.isEmpty_iff] using h
    simp [model_input, he]
  · intro n
    simp only [graphs_ready, Bool.and_eq_true, bne_iff_ne, beq_iff_eq, ne_eq]
    omega
  · intro a s g
    simp [button_enabled, and_assoc]

/-- C1 witness: a singleton artifact list is appended verbatim. -/
theorem C1_no_count_check_witness :
    ([0] : List Nat) ≠ [] ∧
    model_input "P" "S" (some [0]) =
      [ReqPart.text "P", ReqPart.text dataBeginMarker, ReqPart.text "S",
       ReqPart.text dataEndMarker, ReqPart.text artifactsMarker] ++
        ([0] : List Nat).map ReqPart.image :=
  ⟨by decide, (C1_no_count_check "P" "S" [0]).1 (by decide)⟩

/-- C4: the constructed payload is the ordered sequence [prompt,
data-begin marker, supporting data, data-end marker], followed by the
artifacts marker and the artifacts in order exactly when a non-empty
artifact sequence is supplied, and by nothing otherwise. -/
theorem C4_payload_order {α : Type} (prompt stats : String)
    (images : Option (List α)) :
    ((model_input prompt stats images).take 4 =
      [ReqPart.text prompt, ReqPart.text dataBeginMarker,
       ReqPart.text stats, ReqPart.text dataEndMarker]) ∧
    (∀ l, images = some l → l ≠ [] →
      (model_input prompt stats images).drop 4 =
        ReqPart.text artifactsMarker :: l.map ReqPart.image) ∧
    (images = none → (model_input prompt stats images).drop 4 = []) ∧
    (images = some [] → (model_input prompt stats images).drop 4 = []) := by
  refine ⟨?_, ?_, ?_, ?_⟩
  · cases images with
    | none => rfl
    | some l =>
      by_cases hl : l.isEmpty
      · simp [model_input, hl]
      · simp [model_input, hl]
  · intro l hEq hne
    subst hEq
    have he : l.isEmpty = false := by simpa [List.isEmpty_iff] using hne
    simp [model_input, he]
  · intro h
    subst h
    rfl
  · intro h
    subst h
    rfl

/-- C4 witness: a one-artifact payload has the four ordered text parts
followed by the artifacts marker and the artifact. -/
theorem C4_payload_order_witness :
    (model_input "P" "S" (some [(7 : Nat)])).take 4 =
      [ReqPart.text "P", ReqPart.text dataBeginMarker,
       ReqPart.text "S", ReqPart.text dataEndMarker] ∧
    (model_input "P" "S" (some [(7 : Nat)])).drop 4 =
      ReqPart.text artifactsMarker :: [(7 : Nat)].map ReqPart.image :=
  ⟨(C4_payload_order "P" "S" (some [7])).1,
   (C4_payload_order "P" "S" (some [7])).2.1 [7] rfl (by decide)⟩

/-- C5 counterexample: the JSON download document has no `process_health`
field, and the Markdown preamble does not mention the model in use (here
"보통"): the claimed field set and preamble contents do not hold. -/
theorem C5_counterexample :
    "process_health" ∉
      (json_data "2024-01-01T00:00:00" "보통" "full" "R").map Prod.fst ∧
    containsSub "보통".data
      (report_with_header "2024-01-01 00:00:00" AnalysisType.full "R").data
      = false := by
  constructor
  · decide
  · decide

theorem containsSub_self (p : List Char) : containsSub p p = true := by
  simpa using containsSub_self_append p []

/-- C5 (amended): the JSON output document contains exactly the fields
{timestamp, model, analysis_type, report} in this order (no
`process_health` field), and the Markdown output document wraps the
generated text with a metadata preamble containing the timestamp and the
analysis variant (but not the model or the risk tier). -/
theorem C5_output_documents (ts model atype report now content : String)
    (a : AnalysisType) :
    (json_data ts model atype report).map Prod.fst =
      ["timestamp", "model", "analysis_type", "report"] ∧
    containsSub now.data (report_with_header now a content).data = true ∧
    containsSub (analysis_label a).data
      (report_with_header now a content).data = true ∧
    containsSub content.data (report_with_header now a content).data = true := by
  have dapp : ∀ s t : String, (s ++ t).data = s.data ++ t.data := fun _ _ => rfl
  refine ⟨rfl, ?_, ?_, ?_⟩
  · rw [report_with_header]
    simp only [dapp, List.append_assoc]
    exact containsSub_append_right _ _ _ (containsSub_self_append _ _)
  · rw [report_with_header]
    simp only [dapp, List.append_assoc]
    exact containsSub_append_right _ _ _ (containsSub_append_right _ _ _
      (containsSub_append_right _ _ _ (containsSub_self_append _ _)))
  · rw [report_with_header]
    simp only [dapp, List.append_assoc]
    exact containsSub_append_right _ _ _ (containsSub_append_right _ _ _
      (containsSub_append_right _ _ _ (containsSub_append_right _ _ _
        (containsSub_append_right _ _ _ (containsSub_self _)))))
